import Mathlib

/-!
# Verification of the sei-chain EVM log-filter engine (`evmrpc/filter.go`)

This file gives a shallow embedding of the filter registry (`FilterAPI`) and
the log fetcher (`LogFetcher`) of `evmrpc/filter.go`, together with theorems
settling the specification claims about them.

Modelling conventions:
* Addresses, hashes and log-bloom values are opaque data; we represent them
  by natural numbers.
* Heights are `Int` (Go `int64`; no arithmetic here approaches the 64-bit
  bound, so overflow wrapping is irrelevant to every claim).
* Fallible collaborator calls return `Except Err`.
* The collaborators consumed by the fetcher (tendermint block fetch, keeper
  receipt/bloom/tx-hash lookups, the bloom index encoder/matcher, and the
  block event stream) live behind narrow interfaces outside this file's
  source; they are collected in a `FetchEnv` record of abstract functions,
  so every theorem quantifies over their behaviour.
* The per-filter expiry timer is modelled by its observable content: the
  absolute expiry instant `deadline`; `Reset(timeout)` at instant `now`
  stores `now + timeout`, and the sweep removes a filter whose instant has
  passed.  Each registry operation takes the current instant `now` as an
  explicit argument.
-/

/-- Error values returned by collaborators and by the API (Go `error`). -/
abbrev Err := String

/-- An EVM address (opaque 20-byte value). -/
abbrev EthAddress := Nat

/-- A 32-byte hash (topic, tx hash, block hash). -/
abbrev EthHash := Nat

/-- A 256-byte log-bloom value (opaque: only the matcher inspects it). -/
abbrev EthBloom := Nat

/-- One bloom bit-position triple produced by `EncodeFilters`
(`bloomIndexes` in the source); opaque to `filter.go` itself. -/
abbrev BloomIdx := Nat

/-- `ethtypes.Log` — the fields `filter.go` reads or writes. -/
structure EthLog where
  address : EthAddress
  topics : List EthHash
  blockNumber : Int
  txHash : EthHash
  txIndex : Nat
  blockHash : EthHash
  index : Nat
  removed : Bool
  deriving Repr, DecidableEq

/-- `filters.FilterCriteria` — `BlockHash`, `FromBlock`, `ToBlock` (via
`Int64()` on the `big.Int`), `Addresses`, `Topics`. -/
structure FilterCriteria where
  blockHash : Option EthHash
  fromBlock : Option Int
  toBlock : Option Int
  addresses : List EthAddress
  topics : List (List EthHash)
  deriving Repr, DecidableEq

/-- The zero value of `filters.FilterCriteria` (used by `NewBlockFilter`,
which stores a filter whose criteria field is left at its zero value). -/
def FilterCriteria.zero : FilterCriteria :=
  ⟨none, none, none, [], []⟩

/-- `coretypes.ResultBlock` — the fields `filter.go` reads: the block height
(`block.Block.Height`) and the block-ID hash (`block.BlockID.Hash`). -/
structure ResultBlock where
  height : Int
  blockIDHash : EthHash
  deriving Repr, DecidableEq

/-- An EVM receipt — the fields `filter.go` and `keeper.GetLogsForTx` read:
the stored log bloom and the logs list. -/
structure Receipt where
  logsBloom : EthBloom
  logs : List EthLog
  deriving Repr, DecidableEq

/-- One page of the tendermint `Events` stream
(`coretypes.ResultEvents`): raw items, a more-available flag and the newest
cursor token. -/
structure EventsPage where
  items : List Nat
  more : Bool
  newest : String
  deriving Repr, DecidableEq

/-- The collaborators consumed by `LogFetcher` and `FilterAPI`
(spec §6): block fetch with retry, receipt / bloom / tx-hash keeper
lookups, the bloom index encoder and matcher (defined in a sibling file of
the repository), the latest chain height, and the paged block event
stream.  All are abstract: theorems quantify over them. -/
structure FetchEnv where
  /-- `f.ctxProvider(LatestCtxHeight).BlockHeight()`. -/
  latestHeight : Int
  /-- `blockByHashWithRetry` — block-by-hash fetch with retry. -/
  blockByHash : EthHash → Except Err ResultBlock
  /-- `blockWithRetry` — block-by-height fetch with retry. -/
  blockByHeight : Int → Except Err ResultBlock
  /-- `k.GetBlockBloom` — per-height stored bloom value. -/
  getBlockBloom : Int → EthBloom
  /-- `k.GetTxHashesOnHeight` — ordered tx hashes of a height. -/
  getTxHashesOnHeight : Int → List EthHash
  /-- `k.GetReceipt` — receipt-by-transaction-hash fetch (fallible). -/
  getReceipt : EthHash → Except Err Receipt
  /-- `MatchFilters(bloom, indexes)` — the bloom matcher. -/
  matchFilters : EthBloom → List (List BloomIdx) → Bool
  /-- `EncodeFilters(addresses, topics)` — the bloom indexer. -/
  encodeFilters : List EthAddress → List (List EthHash) → List (List BloomIdx)
  /-- `tmClient.Events` — one page of the block event stream after a
  cursor. -/
  events : String → Except Err EventsPage
  /-- The two-step `json.Unmarshal` of one raw event item into a new-block
  event, followed by `common.BytesToHash(block.Block.Hash())`. -/
  parseBlockHash : Nat → Except Err EthHash

/-- `matchTopics`' loop over `topics` with running position index `i`:
an empty accepted list at a position matches anything; a non-empty list at
a position beyond the log's topics fails; otherwise the log's topic at the
position must be a member of the accepted list. -/
def matchTopicsAux : List (List EthHash) → Nat → List EthHash → Bool
  | [], _, _ => true
  | topicList :: rest, i, eventTopics =>
    if topicList.isEmpty then
      matchTopicsAux rest (i + 1) eventTopics
    else
      match eventTopics.get? i with
      | none => false
      | some t => topicList.contains t && matchTopicsAux rest (i + 1) eventTopics

/-- `matchTopics(topics, eventTopics)` of `filter.go`. -/
def matchTopics (topics : List (List EthHash)) (eventTopics : List EthHash) : Bool :=
  matchTopicsAux topics 0 eventTopics

/-- `LogFetcher.IsLogExactMatch`: the address set is empty or contains the
log's address, and the topics match. -/
def IsLogExactMatch (log : EthLog) (crit : FilterCriteria) : Bool :=
  (crit.addresses.isEmpty || crit.addresses.contains log.address)
    && matchTopics crit.topics log.topics

/-- `getHeightFromBigIntBlockNumber`.  Modelled from the spec: the helper
(defined in a sibling file of the repository, not present here) resolves a
`FromBlock`/`ToBlock` criterion against the latest chain height — the
negative tag values (latest/pending/finalized/safe) resolve to the current
chain height, a concrete block number resolves to itself. -/
def getHeightFromBigIntBlockNumber (latest : Int) (number : Int) : Int :=
  if number < 0 then latest else number

/-- `LogFetcher.FindLogsByBloom`: for each tx hash on the height, fetch the
receipt; on a fetch error, log and `continue` (the hash is skipped); on
success, append the receipt's logs when its log bloom matches the filters. -/
def FindLogsByBloom (env : FetchEnv) (height : Int)
    (filters : List (List BloomIdx)) : List EthLog :=
  (env.getTxHashesOnHeight height).foldl
    (fun res hash =>
      match env.getReceipt hash with
      | .error _ => res
      | .ok receipt =>
        if env.matchFilters receipt.logsBloom filters then res ++ receipt.logs
        else res)
    []

/-- The in-place mutation loop of `GetLogsForBlock`
(`l.BlockHash = ...; l.Index = uint(i)`): stamp the block-ID hash on every
matched log and renumber `Index` sequentially from `i`. -/
def stampLogs (blockIDHash : EthHash) : Nat → List EthLog → List EthLog
  | _, [] => []
  | i, l :: rest =>
    { l with blockHash := blockIDHash, index := i } :: stampLogs blockIDHash (i + 1) rest

/-- `LogFetcher.GetLogsForBlock`: bloom-prefilter the height's logs, keep
the exact matches, then stamp `BlockHash` and renumber `Index` (0-based). -/
def GetLogsForBlock (env : FetchEnv) (block : ResultBlock)
    (crit : FilterCriteria) (filters : List (List BloomIdx)) : List EthLog :=
  let possibleLogs := FindLogsByBloom env block.height filters
  let matchedLogs := possibleLogs.filter (fun l => IsLogExactMatch l crit)
  stampLogs block.blockIDHash 0 matchedLogs

/-- The ascending loop `for height := begin; height <= end; height++`
enumerated as a list. -/
def heightsRange (b e : Int) : List Int :=
  (List.range (e + 1 - b).toNat).map (fun i => b + Int.ofNat i)

/-- `LogFetcher.FindBlockesByBloom`: the heights in `[begin, end]` whose
stored block bloom matches the filters, in ascending scan order. -/
def FindBlockesByBloom (env : FetchEnv) (b e : Int)
    (filters : List (List BloomIdx)) : List Int :=
  (heightsRange b e).filter (fun height =>
    env.matchFilters (env.getBlockBloom height) filters)

/-- The candidate-scan loop of `GetLogsByFilters`: fetch each candidate
block in order; a block-fetch error aborts the whole scan with that error;
otherwise the block's filtered logs are appended to the accumulator. -/
def scanBlocks (env : FetchEnv) (crit : FilterCriteria)
    (filters : List (List BloomIdx)) :
    List Int → List EthLog → Except Err (List EthLog)
  | [], res => .ok res
  | height :: rest, res =>
    match env.blockByHeight height with
    | .error e => .error e
    | .ok block =>
      scanBlocks env crit filters rest (res ++ GetLogsForBlock env block crit filters)

/-- The resolved scan start of `GetLogsByFilters`' range case: `FromBlock`
(default 0), advanced to `lastToHeight` when the latter is larger. -/
def resolvedBegin (env : FetchEnv) (crit : FilterCriteria) (lastToHeight : Int) : Int :=
  let b := match crit.fromBlock with
    | none => 0
    | some fb => getHeightFromBigIntBlockNumber env.latestHeight fb
  if lastToHeight > b then lastToHeight else b

/-- The resolved scan end of `GetLogsByFilters`' range case: `ToBlock`,
defaulting to the latest chain height. -/
def resolvedEnd (env : FetchEnv) (crit : FilterCriteria) : Int :=
  match crit.toBlock with
  | none => env.latestHeight
  | some tb => getHeightFromBigIntBlockNumber env.latestHeight tb

/-- The candidate heights `GetLogsByFilters` scans in its range case. -/
def rangeScanHeights (env : FetchEnv) (crit : FilterCriteria)
    (lastToHeight : Int) : List Int :=
  FindBlockesByBloom env (resolvedBegin env crit lastToHeight)
    (resolvedEnd env crit) (env.encodeFilters crit.addresses crit.topics)

/-- `LogFetcher.GetLogsByFilters(crit, lastToHeight)`: block-hash case
fetches the single block (abort on error) and scans it; range case
resolves `[begin, end]`, bloom-prefilters the candidate heights and scans
them, aborting on the first block-fetch error; returns the logs and the
resolved to-height. -/
def GetLogsByFilters (env : FetchEnv) (crit : FilterCriteria)
    (lastToHeight : Int) : Except Err (List EthLog × Int) :=
  let bloomIndexes := env.encodeFilters crit.addresses crit.topics
  match crit.blockHash with
  | some bh =>
    match env.blockByHash bh with
    | .error e => .error e
    | .ok block => .ok (GetLogsForBlock env block crit bloomIndexes, block.height)
  | none =>
    match scanBlocks env crit bloomIndexes
        (rangeScanHeights env crit lastToHeight) [] with
    | .error e => .error e
    | .ok res => .ok (res, resolvedEnd env crit)

/-- `FilterType`. -/
inductive FilterType where
  | unknownSubscription
  | logsSubscription
  | blocksSubscription
  deriving Repr, DecidableEq

/-- The registry's per-filter record (`filter` struct): type, criteria,
expiry instant of the deadline timer, block cursor (blocks subscriptions)
and `lastToHeight` (logs subscriptions). -/
structure RegFilter where
  typ : FilterType
  fc : FilterCriteria
  deadline : Int
  blockCursor : String
  lastToHeight : Int
  deriving Repr, DecidableEq

/-- The registry state owned by `FilterAPI`: the next filter ID and the
filter map (modelled as an association list with the Go map's
lookup/replace/delete semantics). -/
structure FilterAPIState where
  nextFilterID : Nat
  filters : List (Nat × RegFilter)
  deriving Repr, DecidableEq

/-- The state `NewFilterAPI` starts from: `nextFilterID = 1`, empty map. -/
def FilterAPIState.init : FilterAPIState :=
  ⟨1, []⟩

/-- Go map read `a.filters[id]`. -/
def lookupFilter : List (Nat × RegFilter) → Nat → Option RegFilter
  | [], _ => none
  | (k, f) :: rest, id => if k = id then some f else lookupFilter rest id

/-- Go map write `a.filters[id] = f` (replace an existing key, else add). -/
def insertFilter : List (Nat × RegFilter) → Nat → RegFilter → List (Nat × RegFilter)
  | [], id, f => [(id, f)]
  | (k, g) :: rest, id, f =>
    if k = id then (k, f) :: rest else (k, g) :: insertFilter rest id f

/-- Go map delete `delete(a.filters, id)`. -/
def deleteFilter : List (Nat × RegFilter) → Nat → List (Nat × RegFilter)
  | [], _ => []
  | (k, g) :: rest, id =>
    if k = id then rest else (k, g) :: deleteFilter rest id

/-- `FilterAPI.NewFilter`: allocate the next ID, register a logs filter
with the criteria, a deadline of `now + timeout` and `lastToHeight = 0`,
and return the ID (the Go function's error is always nil). -/
def NewFilter (timeout now : Int) (s : FilterAPIState)
    (crit : FilterCriteria) : Nat × FilterAPIState :=
  let curFilterID := s.nextFilterID
  (curFilterID,
    { nextFilterID := curFilterID + 1,
      filters := insertFilter s.filters curFilterID
        { typ := .logsSubscription, fc := crit, deadline := now + timeout,
          blockCursor := "", lastToHeight := 0 } })

/-- `FilterAPI.NewBlockFilter`: allocate the next ID, register a blocks
filter with an empty cursor and a deadline of `now + timeout` (criteria
left at the zero value), and return the ID. -/
def NewBlockFilter (timeout now : Int) (s : FilterAPIState) :
    Nat × FilterAPIState :=
  let curFilterID := s.nextFilterID
  (curFilterID,
    { nextFilterID := curFilterID + 1,
      filters := insertFilter s.filters curFilterID
        { typ := .blocksSubscription, fc := FilterCriteria.zero,
          deadline := now + timeout, blockCursor := "", lastToHeight := 0 } })

/-- `FilterAPI.UninstallFilter`: delete the entry if present; the returned
Bool reports whether a removal occurred. -/
def UninstallFilter (s : FilterAPIState) (filterID : Nat) :
    Bool × FilterAPIState :=
  match lookupFilter s.filters filterID with
  | none => (false, s)
  | some _ => (true, { s with filters := deleteFilter s.filters filterID })

/-- One tick of `timeoutLoop`: remove every filter whose deadline timer has
already fired (expiry instant not after `now`). -/
def sweepTick (now : Int) (s : FilterAPIState) : FilterAPIState :=
  { s with filters := s.filters.filter (fun kf => decide (now < kf.2.deadline)) }

/-- The zero value of the `filter` struct (what a Go map read returns for a
missing key). -/
def RegFilter.zero : RegFilter :=
  ⟨.unknownSubscription, FilterCriteria.zero, 0, "", 0⟩

/-- The item loop inside `getBlockHeadersAfter`'s page loop: unmarshal each
raw item into a block hash, aborting on the first unmarshal error, and
append the hashes to the accumulated headers. -/
def parseItems (env : FetchEnv) : List Nat → List EthHash → Except Err (List EthHash)
  | [], headers => .ok headers
  | item :: rest, headers =>
    match env.parseBlockHash item with
    | .error e => .error e
    | .ok h => parseItems env rest (headers ++ [h])

/-- The `hasMore` page loop of `getBlockHeadersAfter`.  `fuel` bounds the
number of pages consumed (the stream is finite in any run the registry
observes); exhausting it is reported as a fetch error. -/
def getBlockHeadersAfterAux (env : FetchEnv) :
    Nat → String → List EthHash → Except Err (List EthHash × String)
  | 0, _, _ => .error "event stream paging did not terminate"
  | fuel + 1, cursor, headers =>
    match env.events cursor with
    | .error e => .error e
    | .ok res =>
      match parseItems env res.items headers with
      | .error e => .error e
      | .ok headers =>
        if res.more then getBlockHeadersAfterAux env fuel res.newest headers
        else .ok (headers, res.newest)

/-- `FilterAPI.getBlockHeadersAfter`: page the block event stream from the
cursor until no more pages, returning the new block hashes and the newest
cursor token. -/
def getBlockHeadersAfter (env : FetchEnv) (fuel : Nat) (cursor : String) :
    Except Err (List EthHash × String) :=
  getBlockHeadersAfterAux env fuel cursor []

/-- The first early-exit guard of `GetFilterChanges`' logs branch:
`filter.fc.BlockHash != nil && filter.lastToHeight > 0`. -/
def hashExhausted (f : RegFilter) : Bool :=
  f.fc.blockHash.isSome && decide (0 < f.lastToHeight)

/-- The second early-exit guard of `GetFilterChanges`' logs branch:
`filter.fc.ToBlock != nil && filter.lastToHeight >= filter.fc.ToBlock.Int64()`. -/
def toBlockExhausted (f : RegFilter) : Bool :=
  match f.fc.toBlock with
  | some tb => decide (tb ≤ f.lastToHeight)
  | none => false

/-- The `interface{}` result of `GetFilterChanges`: block hashes for a
blocks filter, logs for a logs filter, or Go's bare `nil, nil` on the two
early exits. -/
inductive ChangesResult where
  | blockHashes (hs : List EthHash)
  | logs (ls : List EthLog)
  | nilResult
  deriving Repr, DecidableEq

/-- `FilterAPI.GetFilterChanges`: look up the filter (error if absent);
stop/drain/reset its deadline timer to `now + timeout` (before any fetch);
then dispatch on the filter type.  Blocks: page new headers after the
stored cursor, advancing the cursor only on success.  Logs: the two
exhaustion guards return `nil, nil`; otherwise delegate to
`GetLogsByFilters` with the stored `lastToHeight`, and on success store
`resolvedToHeight + 1` as the new cursor.  Errors leave the cursor (but
not the deadline) untouched. -/
def GetFilterChanges (env : FetchEnv) (timeout now : Int) (fuel : Nat)
    (s : FilterAPIState) (filterID : Nat) :
    Except Err ChangesResult × FilterAPIState :=
  match lookupFilter s.filters filterID with
  | none => (.error "filter does not exist", s)
  | some f0 =>
    let f := { f0 with deadline := now + timeout }
    let s1 : FilterAPIState := { s with filters := insertFilter s.filters filterID f }
    match f.typ with
    | .blocksSubscription =>
      match getBlockHeadersAfter env fuel f.blockCursor with
      | .error e => (.error e, s1)
      | .ok (hashes, cursor) =>
        let updatedFilter := (lookupFilter s1.filters filterID).getD RegFilter.zero
        let updatedFilter := { updatedFilter with blockCursor := cursor }
        (.ok (.blockHashes hashes),
         { s1 with filters := insertFilter s1.filters filterID updatedFilter })
    | .logsSubscription =>
      if hashExhausted f then (.ok .nilResult, s1)
      else if toBlockExhausted f then (.ok .nilResult, s1)
      else
        match GetLogsByFilters env f.fc f.lastToHeight with
        | .error e => (.error e, s1)
        | .ok (logs, lastToHeight) =>
          let updatedFilter := (lookupFilter s1.filters filterID).getD RegFilter.zero
          let updatedFilter := { updatedFilter with lastToHeight := lastToHeight + 1 }
          (.ok (.logs logs),
           { s1 with filters := insertFilter s1.filters filterID updatedFilter })
    | .unknownSubscription => (.error "unknown filter type", s1)

/-- `FilterAPI.GetFilterLogs`: look up the filter (error if absent);
stop/drain/reset its deadline timer to `now + timeout` (before the fetch);
rescan from `lastToHeight = 0` via `GetLogsByFilters`, and on success store
the resolved to-height (unmodified, no `+ 1`) as the new cursor. -/
def GetFilterLogs (env : FetchEnv) (timeout now : Int)
    (s : FilterAPIState) (filterID : Nat) :
    Except Err (List EthLog) × FilterAPIState :=
  match lookupFilter s.filters filterID with
  | none => (.error "filter does not exist", s)
  | some f0 =>
    let f := { f0 with deadline := now + timeout }
    let s1 : FilterAPIState := { s with filters := insertFilter s.filters filterID f }
    match GetLogsByFilters env f.fc 0 with
    | .error e => (.error e, s1)
    | .ok (logs, lastToHeight) =>
      let updatedFilter := (lookupFilter s1.filters filterID).getD RegFilter.zero
      let updatedFilter := { updatedFilter with lastToHeight := lastToHeight }
      (.ok logs,
       { s1 with filters := insertFilter s1.filters filterID updatedFilter })

/-- The registry operations that create or remove filters, for reasoning
about ID allocation across whole runs. -/
inductive RegOp where
  | createLogs (crit : FilterCriteria) (now : Int)
  | createBlock (now : Int)
  | uninstall (id : Nat)
  | sweep (now : Int)
  deriving Repr, DecidableEq

/-- Apply one registry operation; creations return the issued ID. -/
def applyRegOp (timeout : Int) (s : FilterAPIState) :
    RegOp → FilterAPIState × Option Nat
  | .createLogs crit now =>
    let r := NewFilter timeout now s crit
    (r.2, some r.1)
  | .createBlock now =>
    let r := NewBlockFilter timeout now s
    (r.2, some r.1)
  | .uninstall id => ((UninstallFilter s id).2, none)
  | .sweep now => (sweepTick now s, none)

/-- The IDs issued along a run of registry operations, in order. -/
def issuedIds (timeout : Int) (s : FilterAPIState) : List RegOp → List Nat
  | [] => []
  | op :: rest =>
    let r := applyRegOp timeout s op
    match r.2 with
    | some id => id :: issuedIds timeout r.1 rest
    | none => issuedIds timeout r.1 rest

/-- A sample log: emitted by address `5`, no topics, at height 0, with a
receipt-time `Index` of 7 (so renumbering is observable). -/
def logA : EthLog :=
  ⟨5, [], 0, 2, 0, 0, 7, false⟩

/-- A concrete environment in which height 0 carries two transactions, the
receipt of tx hash `1` cannot be retrieved, the receipt of tx hash `2`
holds `logA`, every bloom matches, and block fetches by height succeed. -/
def envReceiptSkip : FetchEnv :=
  { latestHeight := 0
    blockByHash := fun _ => .error "no block"
    blockByHeight := fun h => .ok ⟨h, 99⟩
    getBlockBloom := fun _ => 0
    getTxHashesOnHeight := fun h => if h = 0 then [1, 2] else []
    getReceipt := fun h => if h = 2 then .ok ⟨0, [logA]⟩ else .error "receipt not found"
    matchFilters := fun _ _ => true
    encodeFilters := fun _ _ => []
    events := fun _ => .error "no events"
    parseBlockHash := fun _ => .error "bad item" }

/-- A concrete environment at chain height 10 in which no block bloom
matches, so every range scan succeeds with no candidate blocks. -/
def envNoMatch : FetchEnv :=
  { latestHeight := 10
    blockByHash := fun _ => .error "no block"
    blockByHeight := fun _ => .error "no block"
    getBlockBloom := fun _ => 0
    getTxHashesOnHeight := fun _ => []
    getReceipt := fun _ => .error "receipt not found"
    matchFilters := fun _ _ => false
    encodeFilters := fun _ _ => []
    events := fun _ => .error "no events"
    parseBlockHash := fun _ => .error "bad item" }

/-- A concrete environment at chain height 0 in which height 0 is a bloom
candidate but its block cannot be fetched, so every range scan fails. -/
def envErrBlock : FetchEnv :=
  { latestHeight := 0
    blockByHash := fun _ => .error "no block"
    blockByHeight := fun _ => .error "block fetch failed"
    getBlockBloom := fun _ => 0
    getTxHashesOnHeight := fun _ => []
    getReceipt := fun _ => .error "receipt not found"
    matchFilters := fun _ _ => true
    encodeFilters := fun _ _ => []
    events := fun _ => .error "no events"
    parseBlockHash := fun _ => .error "bad item" }

/-- A concrete environment at chain height 12 in which every block bloom
matches, so a range scan from height 11 has candidates 11 and 12. -/
def envHigh : FetchEnv :=
  { latestHeight := 12
    blockByHash := fun _ => .error "no block"
    blockByHeight := fun h => .ok ⟨h, 0⟩
    getBlockBloom := fun _ => 0
    getTxHashesOnHeight := fun _ => []
    getReceipt := fun _ => .error "receipt not found"
    matchFilters := fun _ _ => true
    encodeFilters := fun _ _ => []
    events := fun _ => .error "no events"
    parseBlockHash := fun _ => .error "bad item" }

/-- Registry after registering one open logs filter (no bounds, no hash) at
instant 0 with timeout 100: it gets ID 1 and `lastToHeight = 0`. -/
def regS1 : FilterAPIState :=
  (NewFilter 100 0 FilterAPIState.init FilterCriteria.zero).2

/-- `regS1` after a successful `GetFilterChanges` on filter 1 against
`envNoMatch` at instant 1. -/
def regS2 : FilterAPIState :=
  (GetFilterChanges envNoMatch 100 1 1 regS1 1).2

/-- `regS2` after a successful `GetFilterLogs` on filter 1 against
`envNoMatch` at instant 2. -/
def regS3 : FilterAPIState :=
  (GetFilterLogs envNoMatch 100 2 regS2 1).2

/-- Criteria carrying both a block hash and a from/to range. -/
def critConflict : FilterCriteria :=
  ⟨some 1, some 1, some 2, [], []⟩

/-- Modelled from the spec: the criteria validation at the request boundary
("validation occurs before entering the registry — a boundary concern";
"optional `blockHash` (mutually exclusive with fromBlock/toBlock —
supplying both is an error)").  The decoding layer that performs this
mutual-exclusion check is not part of this package's source (the
registry's own `NewFilter` performs no validation); the boundary rejects
the criteria before the registry is touched, as exercised by the
repository's `TestFilterNew` case "error: block hash and block range both
given". -/
def newFilterWithValidation (timeout now : Int) (s : FilterAPIState)
    (crit : FilterCriteria) : Except Err Nat × FilterAPIState :=
  if crit.blockHash.isSome && (crit.fromBlock.isSome || crit.toBlock.isSome) then
    (.error "cannot specify both BlockHash and FromBlock/ToBlock, choose one or the other", s)
  else
    let r := NewFilter timeout now s crit
    (.ok r.1, r.2)

/-- `Except` success as a Bool (Go `err == nil`). -/
def exceptIsOk {α : Type} : Except Err α → Bool
  | .ok _ => true
  | .error _ => false

theorem lookupFilter_insert_self (l : List (Nat × RegFilter)) (id : Nat) (f : RegFilter) :
    lookupFilter (insertFilter l id f) id = some f := by
  induction l with
  | nil => simp [insertFilter, lookupFilter]
  | cons kg rest ih =>
    obtain ⟨k, g⟩ := kg
    by_cases h : k = id
    · simp [insertFilter, lookupFilter, h]
    · simp [insertFilter, lookupFilter, h, ih]

theorem matchTopicsAux_iff (tls : List (List EthHash)) :
    ∀ (i : Nat) (ev : List EthHash),
    matchTopicsAux tls i ev = true ↔
      ∀ j tl, tls.get? j = some tl → tl ≠ [] →
        ∃ t, ev.get? (i + j) = some t ∧ t ∈ tl := by
  induction tls with
  | nil =>
    intro i ev
    simp [matchTopicsAux]
  | cons tl0 rest ih =>
    intro i ev
    simp only [matchTopicsAux]
    by_cases hemp : tl0.isEmpty
    · have htl0 : tl0 = [] := List.isEmpty_iff.mp hemp
      rw [if_pos hemp, ih (i + 1) ev]
      constructor
      · intro H j tlj hj hne
        match j with
        | 0 =>
          have : tlj = tl0 := by simpa using hj.symm
          exact absurd (this.trans htl0) hne
        | j + 1 =>
          obtain ⟨t, ht, hmem⟩ := H j tlj (by simpa using hj) hne
          refine ⟨t, ?_, hmem⟩
          rwa [show i + (j + 1) = i + 1 + j by omega]
      · intro H j tlj hj hne
        obtain ⟨t, ht, hmem⟩ := H (j + 1) tlj (by simpa using hj) hne
        refine ⟨t, ?_, hmem⟩
        rwa [show i + 1 + j = i + (j + 1) by omega]
    · have htl0 : tl0 ≠ [] := fun h => hemp (by simp [h])
      rw [if_neg hemp]
      cases hev : ev.get? i with
      | none =>
        simp only [Bool.false_eq_true, false_iff]
        intro H
        obtain ⟨t, ht, _⟩ := H 0 tl0 rfl htl0
        rw [Nat.add_zero, hev] at ht
        exact Option.noConfusion ht
      | some t0 =>
        rw [Bool.and_eq_true, ih (i + 1) ev]
        constructor
        · rintro ⟨hc, H⟩ j tlj hj hne
          match j with
          | 0 =>
            have : tlj = tl0 := by simpa using hj.symm
            subst this
            exact ⟨t0, by rw [Nat.add_zero]; exact hev, by simpa using hc⟩
          | j + 1 =>
            obtain ⟨t, ht, hmem⟩ := H j tlj (by simpa using hj) hne
            refine ⟨t, ?_, hmem⟩
            rwa [show i + (j + 1) = i + 1 + j by omega]
        · intro H
          constructor
          · obtain ⟨t, ht, hmem⟩ := H 0 tl0 rfl htl0
            rw [Nat.add_zero, hev] at ht
            cases ht
            simpa using hmem
          · intro j tlj hj hne
            obtain ⟨t, ht, hmem⟩ := H (j + 1) tlj (by simpa using hj) hne
            refine ⟨t, ?_, hmem⟩
            rwa [show i + 1 + j = i + (j + 1) by omega]

/-- C5: `IsLogExactMatch(log, crit)` returns true iff the address set is
empty or contains the log's address, and for every topic position with a
non-empty accepted set the log has a topic at that position which is a
member of the accepted set; positions with an empty accepted set match
vacuously. -/
theorem isLogExactMatch_iff (log : EthLog) (crit : FilterCriteria) :
    IsLogExactMatch log crit = true ↔
      ((crit.addresses = [] ∨ log.address ∈ crit.addresses) ∧
       ∀ j tl, crit.topics.get? j = some tl → tl ≠ [] →
         ∃ t, log.topics.get? j = some t ∧ t ∈ tl) := by
  unfold IsLogExactMatch matchTopics
  rw [Bool.and_eq_true, Bool.or_eq_true, matchTopicsAux_iff]
  simp only [Nat.zero_add, List.isEmpty_iff, List.contains_iff_exists_mem_beq]
  constructor
  · rintro ⟨ha, ht⟩
    refine ⟨?_, ht⟩
    rcases ha with h | ⟨a, ha, hb⟩
    · exact Or.inl h
    · exact Or.inr (by rw [show log.address = a by simpa using hb]; exact ha)
  · rintro ⟨ha, ht⟩
    refine ⟨?_, ht⟩
    rcases ha with h | h
    · exact Or.inl h
    · exact Or.inr ⟨log.address, h, by simp⟩

/-- Witness for C5 at a concrete log and criteria: address `7` is in the
address set, topic position 0 is a wildcard and position 1 accepts `9`. -/
theorem isLogExactMatch_iff_witness :
    IsLogExactMatch (EthLog.mk 7 [3, 9] 0 0 0 0 0 false)
      (FilterCriteria.mk none none none [7] [[], [9]]) = true :=
  (isLogExactMatch_iff (EthLog.mk 7 [3, 9] 0 0 0 0 0 false)
      (FilterCriteria.mk none none none [7] [[], [9]])).mpr
    ⟨Or.inr (by decide), by
      intro j tl hj hne
      match j with
      | 0 =>
        have h0 : tl = [] := by simpa using hj.symm
        exact absurd h0 hne
      | 1 =>
        have h1 : tl = [9] := by simpa using hj.symm
        subst h1
        exact ⟨9, rfl, by decide⟩
      | j + 2 => simp at hj⟩

theorem stampLogs_get (bh : EthHash) :
    ∀ (xs : List EthLog) (i j : Nat) (h : j < (stampLogs bh i xs).length),
      ((stampLogs bh i xs).get ⟨j, h⟩).blockHash = bh ∧
      ((stampLogs bh i xs).get ⟨j, h⟩).index = i + j := by
  intro xs
  induction xs with
  | nil => intro i j h; simp [stampLogs] at h
  | cons x rest ih =>
    intro i j h
    match j with
    | 0 => simp [stampLogs]
    | j + 1 =>
      have h' : j < (stampLogs bh (i + 1) rest).length := by
        have hl := h
        simp only [stampLogs, List.length_cons] at hl
        omega
      have hih := ih (i + 1) j h'
      refine ⟨?_, ?_⟩
      · simpa only [stampLogs, List.get_cons_succ] using hih.1
      · have := hih.2
        simp only [stampLogs, List.get_cons_succ]
        rw [this]
        omega

/-- C9: every log returned by `GetLogsForBlock` carries the fetched block's
block-ID hash in `BlockHash` and its own 0-based position in the returned
list in `Index`, overriding whatever the receipt stored. -/
theorem getLogsForBlock_stamps_hash_and_index
    (env : FetchEnv) (block : ResultBlock) (crit : FilterCriteria)
    (filters : List (List BloomIdx)) (j : Nat)
    (h : j < (GetLogsForBlock env block crit filters).length) :
    ((GetLogsForBlock env block crit filters).get ⟨j, h⟩).blockHash = block.blockIDHash ∧
    ((GetLogsForBlock env block crit filters).get ⟨j, h⟩).index = j := by
  have hmain := stampLogs_get block.blockIDHash
    ((FindLogsByBloom env block.height filters).filter (fun l => IsLogExactMatch l crit)) 0 j h
  simpa using hmain

/-- Witness for C9: in `envReceiptSkip`, the surviving log of block 0 is
returned with `BlockHash` 99 and `Index` 0 (its receipt said 7). -/
theorem getLogsForBlock_stamps_witness :
    ((GetLogsForBlock envReceiptSkip ⟨0, 99⟩ FilterCriteria.zero []).get
        ⟨0, by decide⟩).blockHash = (99 : EthHash) ∧
    ((GetLogsForBlock envReceiptSkip ⟨0, 99⟩ FilterCriteria.zero []).get
        ⟨0, by decide⟩).index = 0 :=
  getLogsForBlock_stamps_hash_and_index envReceiptSkip ⟨0, 99⟩ FilterCriteria.zero [] 0 (by decide)

/-- C7: a criteria carrying both a block hash and a from/to range is
rejected by the boundary validation with an error and the registry state
is returned unchanged (no filter registered, no ID issued). -/
theorem newFilterWithValidation_rejects_conflict
    (timeout now : Int) (s : FilterAPIState) (crit : FilterCriteria)
    (bh : EthHash) (fb tb : Int)
    (h1 : crit.blockHash = some bh) (h2 : crit.fromBlock = some fb)
    (h3 : crit.toBlock = some tb) :
    newFilterWithValidation timeout now s crit =
      (.error "cannot specify both BlockHash and FromBlock/ToBlock, choose one or the other", s) := by
  unfold newFilterWithValidation
  simp [h1, h2, h3]

/-- Witness for C7 at the concrete conflicting criteria. -/
theorem newFilterWithValidation_rejects_witness :
    newFilterWithValidation 100 0 FilterAPIState.init critConflict =
      (.error "cannot specify both BlockHash and FromBlock/ToBlock, choose one or the other",
       FilterAPIState.init) :=
  newFilterWithValidation_rejects_conflict 100 0 FilterAPIState.init critConflict
    1 1 2 rfl rfl rfl

theorem issuedIds_aux (timeout : Int) :
    ∀ (ops : List RegOp) (s : FilterAPIState),
      (issuedIds timeout s ops).Pairwise (· < ·) ∧
      ∀ id ∈ issuedIds timeout s ops, s.nextFilterID ≤ id := by
  intro ops
  induction ops with
  | nil => intro s; simp [issuedIds]
  | cons op rest ih =>
    intro s
    cases op with
    | createLogs crit now =>
      obtain ⟨hp, hb⟩ := ih (NewFilter timeout now s crit).2
      have hnext : (NewFilter timeout now s crit).2.nextFilterID = s.nextFilterID + 1 := rfl
      have hfst : (NewFilter timeout now s crit).1 = s.nextFilterID := rfl
      simp only [issuedIds, applyRegOp]
      refine ⟨List.Pairwise.cons ?_ hp, ?_⟩
      · intro id hid
        have := hb id hid
        rw [hnext] at this
        rw [hfst]
        omega
      · intro id hid
        rcases List.mem_cons.mp hid with h | h
        · rw [h, hfst]
        · have := hb id h
          rw [hnext] at this
          omega
    | createBlock now =>
      obtain ⟨hp, hb⟩ := ih (NewBlockFilter timeout now s).2
      have hnext : (NewBlockFilter timeout now s).2.nextFilterID = s.nextFilterID + 1 := rfl
      have hfst : (NewBlockFilter timeout now s).1 = s.nextFilterID := rfl
      simp only [issuedIds, applyRegOp]
      refine ⟨List.Pairwise.cons ?_ hp, ?_⟩
      · intro id hid
        have := hb id hid
        rw [hnext] at this
        rw [hfst]
        omega
      · intro id hid
        rcases List.mem_cons.mp hid with h | h
        · rw [h, hfst]
        · have := hb id h
          rw [hnext] at this
          omega
    | uninstall uid =>
      obtain ⟨hp, hb⟩ := ih (UninstallFilter s uid).2
      have hnext : (UninstallFilter s uid).2.nextFilterID = s.nextFilterID := by
        unfold UninstallFilter
        cases lookupFilter s.filters uid <;> rfl
      simp only [issuedIds, applyRegOp]
      refine ⟨hp, fun id hid => ?_⟩
      have := hb id hid
      rw [hnext] at this
      exact this
    | sweep now =>
      obtain ⟨hp, hb⟩ := ih (sweepTick now s)
      simp only [issuedIds, applyRegOp]
      exact ⟨hp, fun id hid => hb id hid⟩

/-- C8: along any run of creations, uninstalls and sweeps from the initial
registry, the issued filter IDs are strictly increasing in issue order
(hence pairwise distinct and never reused, even after a deletion), and no
issued ID is 0. -/
theorem issuedIds_strictly_increasing (timeout : Int) (ops : List RegOp) :
    (issuedIds timeout FilterAPIState.init ops).Pairwise (· < ·) ∧
    (issuedIds timeout FilterAPIState.init ops).Nodup ∧
    ∀ id ∈ issuedIds timeout FilterAPIState.init ops, id ≠ 0 := by
  obtain ⟨hp, hb⟩ := issuedIds_aux timeout ops FilterAPIState.init
  refine ⟨hp, hp.imp (fun h => Nat.ne_of_lt h), fun id hid => ?_⟩
  have := hb id hid
  simp only [FilterAPIState.init] at this
  omega

/-- Witness for C8: a concrete run — create, create, uninstall the first,
create again — issues IDs 1, 2, 3: strictly increasing, distinct,
nonzero. -/
theorem issuedIds_strictly_increasing_witness :
    (issuedIds 100 FilterAPIState.init
        [.createLogs FilterCriteria.zero 0, .createBlock 0, .uninstall 1,
          .createLogs FilterCriteria.zero 5]).Pairwise (· < ·) ∧
    (issuedIds 100 FilterAPIState.init
        [.createLogs FilterCriteria.zero 0, .createBlock 0, .uninstall 1,
          .createLogs FilterCriteria.zero 5]).Nodup ∧
    0 < (3 : Nat) := by
  have T := issuedIds_strictly_increasing 100
    [.createLogs FilterCriteria.zero 0, .createBlock 0, .uninstall 1,
      .createLogs FilterCriteria.zero 5]
  exact ⟨T.1, T.2.1, Nat.pos_of_ne_zero (T.2.2 3 (by decide))⟩

/-- Counterexample for C3: against `envErrBlock` the log fetch of filter 1
fails, yet the call has already re-armed the deadline: it was 100 before
the call and is `now + timeout = 50 + 100 = 150` after the failing call. -/
theorem deadline_reset_on_error_example :
    (GetFilterChanges envErrBlock 100 50 1 regS1 1).1 = .error "block fetch failed" ∧
    (lookupFilter regS1.filters 1).map RegFilter.deadline = some 100 ∧
    (lookupFilter (GetFilterChanges envErrBlock 100 50 1 regS1 1).2.filters 1).map
        RegFilter.deadline = some 150 :=
  ⟨rfl, rfl, rfl⟩

/-- C3 amended: `GetFilterChanges` and `GetFilterLogs` re-arm the filter's
deadline to `now + timeout` on every call that finds the filter, before
the fetch, so the deadline is reset whether the call succeeds or fails. -/
theorem deadline_always_reset (env : FetchEnv) (timeout now : Int) (fuel : Nat)
    (s : FilterAPIState) (id : Nat) (f : RegFilter)
    (hf : lookupFilter s.filters id = some f) :
    (∀ f', lookupFilter (GetFilterChanges env timeout now fuel s id).2.filters id = some f' →
       f'.deadline = now + timeout) ∧
    (∀ f', lookupFilter (GetFilterLogs env timeout now s id).2.filters id = some f' →
       f'.deadline = now + timeout) := by
  constructor
  · intro f' hf'
    simp only [GetFilterChanges, hf, lookupFilter_insert_self, Option.getD_some] at hf'
    split at hf'
    · split at hf'
      · simp only [lookupFilter_insert_self] at hf'
        cases hf'
        rfl
      · simp only [lookupFilter_insert_self] at hf'
        cases hf'
        rfl
    · split at hf'
      · simp only [lookupFilter_insert_self] at hf'
        cases hf'
        rfl
      · split at hf'
        · simp only [lookupFilter_insert_self] at hf'
          cases hf'
          rfl
        · split at hf'
          · simp only [lookupFilter_insert_self] at hf'
            cases hf'
            rfl
          · simp only [lookupFilter_insert_self] at hf'
            cases hf'
            rfl
    · simp only [lookupFilter_insert_self] at hf'
      cases hf'
      rfl
  · intro f' hf'
    simp only [GetFilterLogs, hf, lookupFilter_insert_self, Option.getD_some] at hf'
    split at hf'
    · simp only [lookupFilter_insert_self] at hf'
      cases hf'
      rfl
    · simp only [lookupFilter_insert_self] at hf'
      cases hf'
      rfl

/-- Witness for C3's amended theorem: the failing call on `envErrBlock`
at instant 50 leaves filter 1 stored with deadline `150 = 50 + 100`. -/
theorem deadline_always_reset_witness :
    (RegFilter.mk FilterType.logsSubscription FilterCriteria.zero 150 "" 0).deadline =
      50 + 100 :=
  (deadline_always_reset envErrBlock 100 50 1 regS1 1
      (RegFilter.mk FilterType.logsSubscription FilterCriteria.zero 100 "" 0) (by decide)).1
    (RegFilter.mk FilterType.logsSubscription FilterCriteria.zero 150 "" 0) (by decide)

theorem hashExhausted_mk (t : FilterType) (fc : FilterCriteria) (d : Int)
    (bc : String) (lth : Int) :
    hashExhausted ⟨t, fc, d, bc, lth⟩ = (fc.blockHash.isSome && decide (0 < lth)) := rfl

theorem toBlockExhausted_mk (t : FilterType) (fc : FilterCriteria) (d : Int)
    (bc : String) (lth : Int) :
    toBlockExhausted ⟨t, fc, d, bc, lth⟩ =
      (match fc.toBlock with | some tb => decide (tb ≤ lth) | none => false) := rfl

/-- C6: a `GetFilterChanges` or `GetFilterLogs` call that finds its filter
but returns an error leaves both stored cursors — `lastToHeight` and
`blockCursor` — exactly as they were before the call. -/
theorem cursor_unchanged_on_error (env : FetchEnv) (timeout now : Int) (fuel : Nat)
    (s : FilterAPIState) (id : Nat) (f : RegFilter)
    (hf : lookupFilter s.filters id = some f) :
    (∀ e, (GetFilterChanges env timeout now fuel s id).1 = .error e →
       ∀ f', lookupFilter (GetFilterChanges env timeout now fuel s id).2.filters id = some f' →
         f'.lastToHeight = f.lastToHeight ∧ f'.blockCursor = f.blockCursor) ∧
    (∀ e, (GetFilterLogs env timeout now s id).1 = .error e →
       ∀ f', lookupFilter (GetFilterLogs env timeout now s id).2.filters id = some f' →
         f'.lastToHeight = f.lastToHeight ∧ f'.blockCursor = f.blockCursor) := by
  constructor
  · intro e he f' hf'
    cases htyp : f.typ with
    | unknownSubscription =>
      simp only [GetFilterChanges, hf, htyp, lookupFilter_insert_self] at hf'
      cases hf'
      exact ⟨rfl, rfl⟩
    | blocksSubscription =>
      cases hbh : getBlockHeadersAfter env fuel f.blockCursor with
      | error e2 =>
        simp only [GetFilterChanges, hf, htyp, hbh, lookupFilter_insert_self] at hf'
        cases hf'
        exact ⟨rfl, rfl⟩
      | ok pr =>
        obtain ⟨hashes, cursor⟩ := pr
        simp only [GetFilterChanges, hf, htyp, hbh] at he
        exact absurd he (by simp)
    | logsSubscription =>
      cases hg1 : (f.fc.blockHash.isSome && decide (0 < f.lastToHeight)) with
      | true =>
        simp [GetFilterChanges, hf, htyp, hashExhausted_mk, hg1] at he
      | false =>
        cases hg2 : (match f.fc.toBlock with
            | some tb => decide (tb ≤ f.lastToHeight)
            | none => false) with
        | true =>
          simp [GetFilterChanges, hf, htyp, hashExhausted_mk, toBlockExhausted_mk,
            hg1, hg2] at he
        | false =>
          cases hres : GetLogsByFilters env f.fc f.lastToHeight with
          | error e2 =>
            simp only [GetFilterChanges, hf, htyp, hashExhausted_mk, toBlockExhausted_mk,
              hg1, hg2, Bool.false_eq_true, if_false, hres,
              lookupFilter_insert_self] at hf'
            cases hf'
            exact ⟨rfl, rfl⟩
          | ok pr =>
            obtain ⟨logs, lth⟩ := pr
            simp [GetFilterChanges, hf, htyp, hashExhausted_mk, toBlockExhausted_mk,
              hg1, hg2, hres] at he
  · intro e he f' hf'
    cases hres : GetLogsByFilters env f.fc 0 with
    | error e2 =>
      simp only [GetFilterLogs, hf, hres, lookupFilter_insert_self] at hf'
      cases hf'
      exact ⟨rfl, rfl⟩
    | ok pr =>
      obtain ⟨logs, lth⟩ := pr
      simp [GetFilterLogs, hf, hres] at he

/-- Witness for C6: the failing `GetFilterChanges` on `envErrBlock` leaves
filter 1's cursors at their pre-call values. -/
theorem cursor_unchanged_on_error_witness :
    (RegFilter.mk FilterType.logsSubscription FilterCriteria.zero 150 "" 0).lastToHeight =
      (RegFilter.mk FilterType.logsSubscription FilterCriteria.zero 100 "" 0).lastToHeight ∧
    (RegFilter.mk FilterType.logsSubscription FilterCriteria.zero 150 "" 0).blockCursor =
      (RegFilter.mk FilterType.logsSubscription FilterCriteria.zero 100 "" 0).blockCursor :=
  (cursor_unchanged_on_error envErrBlock 100 50 1 regS1 1
      (RegFilter.mk FilterType.logsSubscription FilterCriteria.zero 100 "" 0) (by decide)).1
    "block fetch failed" rfl
    (RegFilter.mk FilterType.logsSubscription FilterCriteria.zero 150 "" 0) (by decide)

/-- Counterexample for C2: on an open logs filter, a successful
`GetFilterChanges` (chain height 10) stores cursor `11 = 10 + 1`; a
following successful `GetFilterLogs` at the same chain height stores
`10`, moving the cursor backward. -/
theorem filter_cursor_moves_backward_example :
    (GetFilterChanges envNoMatch 100 1 1 regS1 1).1 = .ok (.logs []) ∧
    (lookupFilter regS2.filters 1).map RegFilter.lastToHeight = some 11 ∧
    (GetFilterLogs envNoMatch 100 2 regS2 1).1 = .ok [] ∧
    (lookupFilter regS3.filters 1).map RegFilter.lastToHeight = some 10 :=
  ⟨rfl, rfl, rfl, rfl⟩

/-- C2 amended: across `GetFilterChanges` alone the cursor of a logs
filter never decreases (assuming the cursor is within one past the chain
height, which every reachable state satisfies, and block heights are
nonnegative); the original claim fails for interleavings because
`GetFilterLogs` stores `resolvedToHeight` without the `+ 1`. -/
theorem getFilterChanges_cursor_monotone (env : FetchEnv) (timeout now : Int)
    (fuel : Nat) (s : FilterAPIState) (id : Nat) (f : RegFilter)
    (hf : lookupFilter s.filters id = some f)
    (htyp : f.typ = .logsSubscription)
    (h0 : 0 ≤ f.lastToHeight)
    (hle : f.lastToHeight ≤ env.latestHeight + 1)
    (hbh : ∀ bh b, env.blockByHash bh = .ok b → 0 ≤ b.height) :
    ∀ f', lookupFilter (GetFilterChanges env timeout now fuel s id).2.filters id = some f' →
      f.lastToHeight ≤ f'.lastToHeight := by
  intro f' hf'
  cases hg1 : (f.fc.blockHash.isSome && decide (0 < f.lastToHeight)) with
  | true =>
    simp only [GetFilterChanges, hf, htyp, hashExhausted_mk, hg1, if_true,
      lookupFilter_insert_self] at hf'
    cases hf'
    exact le_refl _
  | false =>
    cases hg2 : (match f.fc.toBlock with
        | some tb => decide (tb ≤ f.lastToHeight)
        | none => false) with
    | true =>
      simp only [GetFilterChanges, hf, htyp, hashExhausted_mk, toBlockExhausted_mk,
        hg1, hg2, Bool.false_eq_true, if_false, if_true, lookupFilter_insert_self] at hf'
      cases hf'
      exact le_refl _
    | false =>
      cases hres : GetLogsByFilters env f.fc f.lastToHeight with
      | error e =>
        simp only [GetFilterChanges, hf, htyp, hashExhausted_mk, toBlockExhausted_mk,
          hg1, hg2, Bool.false_eq_true, if_false, hres, lookupFilter_insert_self] at hf'
        cases hf'
        exact le_refl _
      | ok pr =>
        obtain ⟨logs, lth⟩ := pr
        simp only [GetFilterChanges, hf, htyp, hashExhausted_mk, toBlockExhausted_mk,
          hg1, hg2, Bool.false_eq_true, if_false, hres, lookupFilter_insert_self,
          Option.getD_some] at hf'
        cases hf'
        show f.lastToHeight ≤ lth + 1
        cases hcrit : f.fc.blockHash with
        | some bh =>
          have hlt0 : f.lastToHeight = 0 := by
            rw [hcrit] at hg1
            simp at hg1
            omega
          cases henv : env.blockByHash bh with
          | error e2 =>
            simp only [GetLogsByFilters, hcrit, henv] at hres
            exact absurd hres (by simp)
          | ok b =>
            have hb0 := hbh bh b henv
            simp only [GetLogsByFilters, hcrit, henv, Except.ok.injEq, Prod.mk.injEq] at hres
            omega
        | none =>
          cases hscan : scanBlocks env f.fc (env.encodeFilters f.fc.addresses f.fc.topics)
              (rangeScanHeights env f.fc f.lastToHeight) [] with
          | error e2 =>
            simp only [GetLogsByFilters, hcrit, hscan] at hres
            exact absurd hres (by simp)
          | ok res =>
            simp only [GetLogsByFilters, hcrit, hscan, Except.ok.injEq, Prod.mk.injEq] at hres
            have hlth : lth = resolvedEnd env f.fc := hres.2.symm
            cases hto : f.fc.toBlock with
            | none =>
              have : resolvedEnd env f.fc = env.latestHeight := by
                simp only [resolvedEnd, hto]
              omega
            | some tb =>
              rw [hto] at hg2
              simp at hg2
              have : resolvedEnd env f.fc = tb := by
                simp only [resolvedEnd, hto, getHeightFromBigIntBlockNumber]
                rw [if_neg (by omega)]
              omega

/-- Witness for C2's amended theorem: the first `GetFilterChanges` on
`regS1` moves the cursor from 0 up to 11 (stored with deadline 101). -/
theorem getFilterChanges_cursor_monotone_witness :
    (RegFilter.mk FilterType.logsSubscription FilterCriteria.zero 100 "" 0).lastToHeight ≤
      (RegFilter.mk FilterType.logsSubscription FilterCriteria.zero 101 "" 11).lastToHeight :=
  getFilterChanges_cursor_monotone envNoMatch 100 1 1 regS1 1
    (RegFilter.mk FilterType.logsSubscription FilterCriteria.zero 100 "" 0) (by decide) rfl
    (by decide) (by decide)
    (fun bh b hb => absurd hb (by simp [envNoMatch]))
    (RegFilter.mk FilterType.logsSubscription FilterCriteria.zero 101 "" 11) (by decide)

theorem scanBlocks_isOk (env : FetchEnv) (crit : FilterCriteria)
    (filters : List (List BloomIdx)) :
    ∀ (hs : List Int) (acc : List EthLog),
      exceptIsOk (scanBlocks env crit filters hs acc) =
        hs.all (fun h => exceptIsOk (env.blockByHeight h)) := by
  intro hs
  induction hs with
  | nil => intro acc; simp [scanBlocks, exceptIsOk]
  | cons h rest ih =>
    intro acc
    simp only [scanBlocks, List.all_cons]
    cases hb : env.blockByHeight h with
    | error e =>
      simp only [hb]
      simp [exceptIsOk]
    | ok b =>
      simp only [hb]
      rw [ih]
      simp [exceptIsOk]

/-- Counterexample for C1: in `envReceiptSkip` the receipt of tx hash 1
cannot be retrieved, yet the scan over block 0 succeeds, returning the
logs of the fetchable receipt only — the receipt-fetch error is not
propagated and a partial log list is returned. -/
theorem getLogsByFilters_receipt_error_partial_success :
    envReceiptSkip.getReceipt 1 = .error "receipt not found" ∧
    GetLogsByFilters envReceiptSkip FilterCriteria.zero 0 =
      .ok ([EthLog.mk 5 [] 0 2 0 99 0 false], 0) :=
  ⟨rfl, rfl⟩

/-- C1 amended: `GetLogsByFilters` fails exactly when a needed *block*
fetch fails — the single block in the block-hash case, every
bloom-candidate block in the range case — and then returns that error; a
receipt fetch failure inside `FindLogsByBloom` never fails the call (the
transaction is skipped and its logs omitted). -/
theorem getLogsByFilters_isOk_iff_block_fetches (env : FetchEnv)
    (crit : FilterCriteria) (lth : Int) :
    exceptIsOk (GetLogsByFilters env crit lth) =
      (match crit.blockHash with
       | some bh => exceptIsOk (env.blockByHash bh)
       | none => (rangeScanHeights env crit lth).all
           (fun h => exceptIsOk (env.blockByHeight h))) := by
  cases hcrit : crit.blockHash with
  | some bh =>
    cases henv : env.blockByHash bh with
    | error e => simp [GetLogsByFilters, hcrit, henv, exceptIsOk]
    | ok b => simp [GetLogsByFilters, hcrit, henv, exceptIsOk]
  | none =>
    rw [← scanBlocks_isOk env crit (env.encodeFilters crit.addresses crit.topics)
      (rangeScanHeights env crit lth) []]
    cases hscan : scanBlocks env crit (env.encodeFilters crit.addresses crit.topics)
        (rangeScanHeights env crit lth) [] with
    | error e => simp [GetLogsByFilters, hcrit, hscan, exceptIsOk]
    | ok res => simp [GetLogsByFilters, hcrit, hscan, exceptIsOk]

theorem mem_heightsRange {b e h : Int} (hm : h ∈ heightsRange b e) :
    b ≤ h ∧ h ≤ e := by
  simp only [heightsRange, List.mem_map, List.mem_range, Int.ofNat_eq_coe] at hm
  obtain ⟨i, hi, rfl⟩ := hm
  omega

theorem mem_rangeScanHeights {env : FetchEnv} {crit : FilterCriteria}
    {lth h : Int} (hm : h ∈ rangeScanHeights env crit lth) :
    resolvedBegin env crit lth ≤ h ∧ h ≤ resolvedEnd env crit := by
  unfold rangeScanHeights FindBlockesByBloom at hm
  exact mem_heightsRange (List.mem_of_mem_filter hm)

theorem resolvedBegin_ge (env : FetchEnv) (crit : FilterCriteria) (lth : Int) :
    lth ≤ resolvedBegin env crit lth := by
  simp only [resolvedBegin]
  split <;> omega

/-- C4: on a logs filter with no upper bound (no `ToBlock`, no
`BlockHash`), a successful `GetFilterChanges` that resolves the scan up to
the chain height `E` stores `lastToHeight = E + 1`; the poll itself only
scanned heights `≤ E`, and any scan started from the stored cursor (in any
later environment) only visits heights `> E` — so consecutive successful
polls draw their logs from disjoint block-height ranges. -/
theorem getFilterChanges_consecutive_disjoint (env : FetchEnv) (timeout now : Int)
    (fuel : Nat) (s : FilterAPIState) (id : Nat) (f : RegFilter)
    (hf : lookupFilter s.filters id = some f)
    (htyp : f.typ = .logsSubscription)
    (hhash : f.fc.blockHash = none)
    (hto : f.fc.toBlock = none)
    (r : ChangesResult)
    (hok : (GetFilterChanges env timeout now fuel s id).1 = .ok r) :
    (∃ f', lookupFilter (GetFilterChanges env timeout now fuel s id).2.filters id = some f' ∧
       f'.lastToHeight = env.latestHeight + 1) ∧
    (∀ h ∈ rangeScanHeights env f.fc f.lastToHeight, h ≤ env.latestHeight) ∧
    (∀ (env2 : FetchEnv) (h : Int),
       h ∈ rangeScanHeights env2 f.fc (env.latestHeight + 1) → env.latestHeight < h) := by
  have hg1 : (f.fc.blockHash.isSome && decide (0 < f.lastToHeight)) = false := by
    simp [hhash]
  have hg2 : (match f.fc.toBlock with
      | some tb => decide (tb ≤ f.lastToHeight)
      | none => false) = false := by
    rw [hto]
  refine ⟨?_, ?_, ?_⟩
  · cases hres : GetLogsByFilters env f.fc f.lastToHeight with
    | error e =>
      simp [GetFilterChanges, hf, htyp, hashExhausted_mk, toBlockExhausted_mk,
        hg1, hg2, hres] at hok
    | ok pr =>
      obtain ⟨logs, lth⟩ := pr
      have hlth : lth = env.latestHeight := by
        cases hscan : scanBlocks env f.fc (env.encodeFilters f.fc.addresses f.fc.topics)
            (rangeScanHeights env f.fc f.lastToHeight) [] with
        | error e2 =>
          simp only [GetLogsByFilters, hhash, hscan] at hres
          exact absurd hres (by simp)
        | ok res =>
          simp only [GetLogsByFilters, hhash, hscan, Except.ok.injEq, Prod.mk.injEq] at hres
          have : resolvedEnd env f.fc = lth := hres.2
          simp only [resolvedEnd, hto] at this
          omega
      refine ⟨RegFilter.mk FilterType.logsSubscription f.fc (now + timeout)
          f.blockCursor (lth + 1), ?_, ?_⟩
      · simp only [GetFilterChanges, hf, htyp, hashExhausted_mk, toBlockExhausted_mk,
          hg1, hg2, Bool.false_eq_true, if_false, hres, lookupFilter_insert_self,
          Option.getD_some]
      · simp [hlth]
  · intro h hm
    have := (mem_rangeScanHeights hm).2
    simp only [resolvedEnd, hto] at this
    omega
  · intro env2 h hm
    have h1 := (mem_rangeScanHeights hm).1
    have h2 := resolvedBegin_ge env2 f.fc (env.latestHeight + 1)
    omega

/-- Witness for C4: the first successful poll on `regS1` (chain height 10)
stores cursor 11, and a rescan from the stored cursor against `envHigh`
visits height 11, which is beyond 10. -/
theorem getFilterChanges_consecutive_disjoint_witness :
    (lookupFilter (GetFilterChanges envNoMatch 100 1 1 regS1 1).2.filters 1).map
        RegFilter.lastToHeight = some (envNoMatch.latestHeight + 1) ∧
    envNoMatch.latestHeight < 11 := by
  have T := getFilterChanges_consecutive_disjoint envNoMatch 100 1 1 regS1 1
    (RegFilter.mk .logsSubscription FilterCriteria.zero 100 "" 0) (by decide) rfl rfl rfl
    (.logs []) rfl
  refine ⟨?_, T.2.2 envHigh 11 (by decide)⟩
  obtain ⟨f', hf', hl⟩ := T.1
  rw [hf']
  simp [hl]

theorem findBlockesByBloom_pairwise (env : FetchEnv) (b e : Int)
    (filters : List (List BloomIdx)) :
    (FindBlockesByBloom env b e filters).Pairwise (· < ·) := by
  unfold FindBlockesByBloom
  apply List.Pairwise.sublist (List.filter_sublist _)
  unfold heightsRange
  exact List.Pairwise.map _
    (fun a c hac => by simp only [Int.ofNat_eq_coe]; omega) (List.pairwise_lt_range _)

theorem mem_stampLogs_blockNumber (bh : EthHash) :
    ∀ (xs : List EthLog) (i : Nat) (l : EthLog), l ∈ stampLogs bh i xs →
      ∃ x ∈ xs, l.blockNumber = x.blockNumber := by
  intro xs
  induction xs with
  | nil => intro i l hl; simp [stampLogs] at hl
  | cons x rest ih =>
    intro i l hl
    rcases List.mem_cons.mp hl with h | h
    · exact ⟨x, List.mem_cons_self x rest, by rw [h]⟩
    · obtain ⟨y, hy, he⟩ := ih (i + 1) l h
      exact ⟨y, List.mem_cons_of_mem x hy, he⟩

theorem getLogsForBlock_blockNumber (env : FetchEnv) (block : ResultBlock)
    (crit : FilterCriteria) (filters : List (List BloomIdx))
    (hb : ∀ l ∈ FindLogsByBloom env block.height filters, l.blockNumber = block.height) :
    ∀ l ∈ GetLogsForBlock env block crit filters, l.blockNumber = block.height := by
  intro l hl
  obtain ⟨x, hx, he⟩ := mem_stampLogs_blockNumber block.blockIDHash _ 0 l hl
  rw [he]
  exact hb x (List.mem_of_mem_filter hx)

theorem scanBlocks_ok_eq (env : FetchEnv) (crit : FilterCriteria)
    (filters : List (List BloomIdx)) :
    ∀ (hs : List Int) (acc res : List EthLog),
      scanBlocks env crit filters hs acc = .ok res →
      res = acc ++ hs.flatMap (fun h =>
        match env.blockByHeight h with
        | .ok b => GetLogsForBlock env b crit filters
        | .error _ => []) := by
  intro hs
  induction hs with
  | nil =>
    intro acc res hsc
    simp only [scanBlocks, Except.ok.injEq] at hsc
    simp [hsc]
  | cons h rest ih =>
    intro acc res hsc
    simp only [scanBlocks] at hsc
    cases hb : env.blockByHeight h with
    | error e =>
      simp only [hb] at hsc
      exact absurd hsc (by simp)
    | ok b =>
      simp only [hb] at hsc
      have := ih _ res hsc
      simp only [List.flatMap_cons, hb]
      rw [this, List.append_assoc]

theorem flatMap_pairwise_blockNumber (g : Int → List EthLog) :
    ∀ (hs : List Int), hs.Pairwise (· < ·) →
      (∀ h l, l ∈ g h → l.blockNumber = h) →
      (hs.flatMap g).Pairwise (fun l1 l2 => l1.blockNumber ≤ l2.blockNumber) := by
  intro hs
  induction hs with
  | nil => intro _ _; simp
  | cons h rest ih =>
    intro hp hg
    obtain ⟨hhead, htail⟩ := List.pairwise_cons.mp hp
    simp only [List.flatMap_cons]
    rw [List.pairwise_append]
    refine ⟨List.pairwise_of_forall_mem_list (fun a ha c hc => ?_), ih htail hg, ?_⟩
    · rw [hg h a ha, hg h c hc]
    · intro a ha c hc
      obtain ⟨h2, hh2, hc2⟩ := List.mem_flatMap.mp hc
      rw [hg h a ha, hg h2 c hc2]
      exact le_of_lt (hhead h2 hh2)

/-- C10: `FindBlockesByBloom` returns its candidate heights in strictly
increasing order; consequently, when the collaborators report consistent
heights (fetched blocks carry the requested height and a height's logs
carry that height as their block number), a successful range-scan
`GetLogsByFilters` returns its logs grouped by block in ascending
block-height order. -/
theorem findBlockesByBloom_sorted_and_logs_grouped (env : FetchEnv)
    (b e : Int) (filters : List (List BloomIdx)) (crit : FilterCriteria)
    (lth : Int) (logs : List EthLog) (ee : Int)
    (hcrit : crit.blockHash = none)
    (hblk : ∀ h blk, env.blockByHeight h = .ok blk → blk.height = h)
    (hlogs : ∀ h l, l ∈ FindLogsByBloom env h (env.encodeFilters crit.addresses crit.topics) →
       l.blockNumber = h)
    (hok : GetLogsByFilters env crit lth = .ok (logs, ee)) :
    (FindBlockesByBloom env b e filters).Pairwise (· < ·) ∧
    logs.Pairwise (fun l1 l2 => l1.blockNumber ≤ l2.blockNumber) := by
  refine ⟨findBlockesByBloom_pairwise env b e filters, ?_⟩
  cases hscan : scanBlocks env crit (env.encodeFilters crit.addresses crit.topics)
      (rangeScanHeights env crit lth) [] with
  | error e2 =>
    simp only [GetLogsByFilters, hcrit, hscan] at hok
    exact absurd hok (by simp)
  | ok res =>
    simp only [GetLogsByFilters, hcrit, hscan, Except.ok.injEq, Prod.mk.injEq] at hok
    obtain ⟨h1, _⟩ := hok
    have heq := scanBlocks_ok_eq env crit (env.encodeFilters crit.addresses crit.topics)
      (rangeScanHeights env crit lth) [] res hscan
    rw [← h1, heq, List.nil_append]
    have hp : (rangeScanHeights env crit lth).Pairwise (· < ·) := by
      unfold rangeScanHeights
      exact findBlockesByBloom_pairwise env _ _ _
    refine flatMap_pairwise_blockNumber _ _ hp ?_
    intro h l hl
    cases hb : env.blockByHeight h with
    | error e3 => simp only [hb] at hl; simp at hl
    | ok blk =>
      simp only [hb] at hl
      have := getLogsForBlock_blockNumber env blk crit
        (env.encodeFilters crit.addresses crit.topics)
        (fun l2 hl2 => hlogs blk.height l2 hl2) l hl
      rw [this, hblk h blk hb]

/-- Witness for C10 against `envNoMatch`: no candidate blocks, empty
ordered output. -/
theorem findBlockesByBloom_sorted_witness :
    (FindBlockesByBloom envNoMatch 0 3 []).Pairwise (· < ·) ∧
    ([] : List EthLog).Pairwise (fun l1 l2 => l1.blockNumber ≤ l2.blockNumber) :=
  findBlockesByBloom_sorted_and_logs_grouped envNoMatch 0 3 [] FilterCriteria.zero 0 [] 10
    rfl
    (fun h blk hb => absurd hb (by simp [envNoMatch]))
    (fun h l hl => absurd hl (by simp [FindLogsByBloom, envNoMatch]))
    rfl
